import Mathlib

/-!
Verification development for the YouTube download backend: a shallow
embedding of the URL validator, the in-memory job store, the download
service and the HTTP handlers, with theorems checking the stated
properties of the job lifecycle against this embedding.
-/

namespace YTShorts

/-! ## URL validator (services/youtube.py, validate_youtube_url)

The source compiles the Python regex

  ^https?://(www\.)?(youtube\.com/(watch\?v=|embed/|v/)|youtu\.be/|m\.youtube\.com/watch\?v=)[a-zA-Z0-9_-]{11}$

and returns whether re.match accepts the url.  The embedding decides the
same language over the character list of the url.  Note two points of
Python semantics that the embedding keeps: the alternation is decided by
trying every branch (the branches here are mutually exclusive literals,
so this equals first-match), and the dollar anchor of re accepts the end
of the string or a single newline directly before the end. -/

/-- The character class [a-zA-Z0-9_-] of the regex. -/
def isIdChar (c : Char) : Bool :=
  (('a' ≤ c && c ≤ 'z') || ('A' ≤ c && c ≤ 'Z') || ('0' ≤ c && c ≤ '9')
    || c = '_' || c = '-')

/-- Strip an expected literal from the front of the input: some rest when
the input starts with the literal, none otherwise. -/
def chomp : List Char → List Char → Option (List Char)
  | [], cs => some cs
  | _ :: _, [] => none
  | p :: ps, c :: cs => if c = p then chomp ps cs else none

/-- Run the continuation on what follows a literal, false when the literal
is not a prefix of the input. -/
def afterLit (lit : String) (k : List Char → Bool) (cs : List Char) : Bool :=
  match chomp lit.toList cs with
  | some rest => k rest
  | none => false

/-- Exactly n characters of the id class, returning what follows them. -/
def idCount : List Char → Nat → Option (List Char)
  | cs, 0 => some cs
  | [], _ + 1 => none
  | c :: cs, n + 1 => if isIdChar c then idCount cs n else none

/-- The dollar anchor of Python re (no MULTILINE): end of input, or a
single newline directly before the end. -/
def pyEnd : List Char → Bool
  | [] => true
  | [c] => c = '\n'
  | _ => false

/-- The tail [a-zA-Z0-9_-]{11}$ of the regex. -/
def tailMatch (cs : List Char) : Bool :=
  match idCount cs 11 with
  | some rest => pyEnd rest
  | none => false

/-- The host/path alternation of the regex:
youtube\.com/(watch\?v=|embed/|v/)|youtu\.be/|m\.youtube\.com/watch\?v= -/
def hostMatch (cs : List Char) : Bool :=
  afterLit "youtube.com/watch?v=" tailMatch cs ||
  afterLit "youtube.com/embed/" tailMatch cs ||
  afterLit "youtube.com/v/" tailMatch cs ||
  afterLit "youtu.be/" tailMatch cs ||
  afterLit "m.youtube.com/watch?v=" tailMatch cs

/-- The optional (www\.)? group before the host alternation. -/
def afterScheme (cs : List Char) : Bool :=
  hostMatch cs || afterLit "www." hostMatch cs

/-- YouTubeService.validate_youtube_url (also the pydantic validator of
YouTubeUrlRequest, which compiles the identical regex). -/
def validate_youtube_url (url : String) : Bool :=
  afterLit "http://" afterScheme url.toList ||
  afterLit "https://" afterScheme url.toList

/-! ## The URL shape as the specification words it (for comparison)

The claim describes the accepted language as: scheme http or https, an
optional www. or m. subdomain, host youtube.com with path watch?v=,
embed/, or v/, or host youtu.be/, followed by exactly an 11-character
identifier from [A-Za-z0-9_-].  The following definitions are taken from
those words, not from the source, to compare the two languages. -/

/-- Exactly 11 identifier characters and then the end of the string. -/
def specTail (cs : List Char) : Bool :=
  match idCount cs 11 with
  | some rest => rest.isEmpty
  | none => false

/-- Host youtube.com with one of the three paths, or host youtu.be/. -/
def specHostMatch (cs : List Char) : Bool :=
  afterLit "youtube.com/watch?v=" specTail cs ||
  afterLit "youtube.com/embed/" specTail cs ||
  afterLit "youtube.com/v/" specTail cs ||
  afterLit "youtu.be/" specTail cs

/-- Optional www. or m. subdomain before the host. -/
def specAfterScheme (cs : List Char) : Bool :=
  specHostMatch cs ||
  afterLit "www." specHostMatch cs ||
  afterLit "m." specHostMatch cs

/-- The URL shape exactly as the specification sentence describes it. -/
def specUrlShape (url : String) : Bool :=
  afterLit "http://" specAfterScheme url.toList ||
  afterLit "https://" specAfterScheme url.toList

/-! ## Data model (models/youtube_models.py) -/

/-- DownloadStatus enum. -/
inductive DownloadStatus where
  | pending
  | in_progress
  | completed
  | failed
deriving DecidableEq

/-- VideoMetadata: the dictionary get_video_info builds always carries all
seven keys, so the fields are plain values here. -/
structure VideoMetadata where
  title : String
  description : String
  duration : Int
  thumbnail : String
  uploader : String
  view_count : Int
  upload_date : String
deriving DecidableEq

/-! ## Job store (services/youtube.py: self.jobs, a Python dict)

A job record is the dictionary the service keeps per job id; the keys it
ever stores are status, url, progress, metadata, created_at, file_path
and error_details, so the record is a structure with an Option per key
(none = the key is absent), and the store an association list keyed by
job id with first-match lookup and in-place replacement. -/

/-- One job dictionary of self.jobs. -/
structure JobRecord where
  status : DownloadStatus
  url : Option String
  progress : Option Rat
  metadata : Option VideoMetadata
  created_at : Option Nat
  file_path : Option String
  error_details : Option String
deriving DecidableEq

/-- The keyword arguments of one update_job_status call: some = the key is
passed, none = the key is not named in the call. -/
structure JobUpdate where
  url : Option String
  progress : Option Rat
  metadata : Option VideoMetadata
  created_at : Option Nat
  file_path : Option String
  error_details : Option String
deriving DecidableEq

/-- A call that passes no keyword argument besides the status. -/
def emptyUpdate : JobUpdate :=
  { url := none, progress := none, metadata := none, created_at := none,
    file_path := none, error_details := none }

abbrev JobStore := List (String × JobRecord)

/-- Python dict lookup. -/
def findEntry {α : Type} : List (String × α) → String → Option α
  | [], _ => none
  | (k, v) :: rest, key => if k = key then some v else findEntry rest key

/-- Python dict item assignment: replace the entry when present, append it
when absent. -/
def setEntry {α : Type} : List (String × α) → String → α → List (String × α)
  | [], key, v => [(key, v)]
  | (k, v0) :: rest, key, v =>
    if k = key then (k, v) :: rest else (k, v0) :: setEntry rest key v

/-- dict.update key semantics: a key named in the update wins, a key not
named keeps its stored value. -/
def pick {α : Type} : Option α → Option α → Option α
  | some v, _ => some v
  | none, old => old

/-- self.jobs[job_id].update of the existing dictionary (the status key is
always written, the keyword keys overwrite, everything else is kept). -/
def mergeRecord (r : JobRecord) (s : DownloadStatus) (kw : JobUpdate) : JobRecord :=
  { status := s
    url := pick kw.url r.url
    progress := pick kw.progress r.progress
    metadata := pick kw.metadata r.metadata
    created_at := pick kw.created_at r.created_at
    file_path := pick kw.file_path r.file_path
    error_details := pick kw.error_details r.error_details }

/-- The fresh dictionary stored when the id was absent: exactly the status
and the passed keyword arguments. -/
def freshRecord (s : DownloadStatus) (kw : JobUpdate) : JobRecord :=
  { status := s
    url := kw.url
    progress := kw.progress
    metadata := kw.metadata
    created_at := kw.created_at
    file_path := kw.file_path
    error_details := kw.error_details }

/-- YouTubeService.update_job_status: merge into the existing record, or
create the record when the id is absent. -/
def update_job_status (st : JobStore) (job_id : String) (s : DownloadStatus)
    (kw : JobUpdate) : JobStore :=
  match findEntry st job_id with
  | some r => setEntry st job_id (mergeRecord r s kw)
  | none => setEntry st job_id (freshRecord s kw)

/-- YouTubeService.get_job_status. -/
def get_job_status (st : JobStore) (job_id : String) : Option JobRecord :=
  findEntry st job_id

/-! ## Service errors

The Python code signals failure by raising: ValueError for a malformed
URL, a generic Exception with a message for everything else.  The
embedding returns them as values. -/

inductive YtError where
  | invalidInput
  | extraction (msg : String)
deriving DecidableEq

/-- str(e) of the raised exception. -/
def YtError.text : YtError → String
  | .invalidInput => "Invalid YouTube URL format"
  | .extraction msg => msg

/-- YouTubeService.get_video_info.  The yt-dlp call of the non-test branch
is the external engine and enters as the extract argument; the duration
policy check layered on its result is part of the source and is kept. -/
def get_video_info (testMode : Bool) (maxDuration : Int)
    (extract : String → Except String VideoMetadata) (url : String) :
    Except YtError VideoMetadata :=
  if validate_youtube_url url = false then .error .invalidInput
  else if testMode then
    .ok { title := "Test Video Title"
          description := "This is a test video description"
          duration := 180
          thumbnail := "https://example.com/thumbnail.jpg"
          uploader := "Test Uploader"
          view_count := 1000000
          upload_date := "20240101" }
  else
    match extract url with
    | .error e => .error (.extraction ("Error extracting video info: " ++ e))
    | .ok info =>
      if maxDuration < info.duration then
        .error (.extraction ("Error extracting video info: Video too long: "
          ++ toString info.duration ++ "s (max: " ++ toString maxDuration ++ "s)"))
      else .ok info

/-- The fixed synthetic metadata record of the test branch. -/
def testVideoMetadata : VideoMetadata :=
  { title := "Test Video Title"
    description := "This is a test video description"
    duration := 180
    thumbnail := "https://example.com/thumbnail.jpg"
    uploader := "Test Uploader"
    view_count := 1000000
    upload_date := "20240101" }

/-! ## Filesystem and the external download engine -/

/-- The download directory as the embedding sees it: path to content. -/
abbrev FileSys := List (String × String)

/-- One run of the external engine (the yt_dlp.YoutubeDL download of the
non-test branch, out of scope per the specification): its progress hooks
may mutate the store and the filesystem, and it ends with the recorded
downloaded_file (none when no finished hook fired) or with a raised
message, each alongside the store and filesystem it left behind. -/
abbrev EngineRun :=
  JobStore → FileSys → Except (String × JobStore × FileSys) (JobStore × FileSys × Option String)

/-- YouTubeService.download_video for a given job id.  Returns the result
of the Python call (the path, or the raised error) together with the job
store and the filesystem it leaves behind. -/
def download_video (testMode : Bool) (downloadPath : String) (engine : EngineRun)
    (st : JobStore) (fs : FileSys) (url : String) (job_id : String) :
    Except YtError String × JobStore × FileSys :=
  if validate_youtube_url url = false then (.error .invalidInput, st, fs)
  else
    let st1 := update_job_status st job_id .pending
      { emptyUpdate with url := some url }
    if testMode then
      let test_path := downloadPath ++ "/test_video_" ++ job_id ++ ".mp4"
      let fs1 := setEntry fs test_path
        "# Test video file - this would be the actual video content"
      let st2 := update_job_status st1 job_id .completed
        { emptyUpdate with file_path := some test_path }
      (.ok test_path, st2, fs1)
    else
      match engine st1 fs with
      | .ok (st2, fs2, downloaded) =>
        match downloaded with
        | some f =>
          if (findEntry fs2 f).isSome then (.ok f, st2, fs2)
          else
            let msg := "Download completed but file could not be found"
            let st3 := update_job_status st2 job_id .failed
              { emptyUpdate with error_details := some msg }
            let msg2 := "Error downloading video: " ++ msg
            let st4 := update_job_status st3 job_id .failed
              { emptyUpdate with error_details := some msg2 }
            (.error (.extraction msg2), st4, fs2)
        | none =>
          let msg := "Download completed but file could not be found"
          let st3 := update_job_status st2 job_id .failed
            { emptyUpdate with error_details := some msg }
          let msg2 := "Error downloading video: " ++ msg
          let st4 := update_job_status st3 job_id .failed
            { emptyUpdate with error_details := some msg2 }
          (.error (.extraction msg2), st4, fs2)
      | .error (e, st2, fs2) =>
        let msg2 := "Error downloading video: " ++ e
        (.error (.extraction msg2),
         update_job_status st2 job_id .failed
           { emptyUpdate with error_details := some msg2 }, fs2)

/-! ## HTTP surface (api/youtube.py) -/

/-- The HTTPException branches the handlers raise. -/
inductive ApiError where
  | badRequest (msg : String)
  | notFound (msg : String)
  | internal (msg : String)
deriving DecidableEq

/-- The status code of each HTTPException. -/
def ApiError.code : ApiError → Nat
  | .badRequest _ => 400
  | .notFound _ => 404
  | .internal _ => 500

/-- The DownloadResponse body of a successful POST /download. -/
structure DownloadResponse where
  job_id : String
  status : DownloadStatus
  message : String
  created_at : Nat
  metadata : Option VideoMetadata
deriving DecidableEq

/-- POST /download (download_youtube_video): validate, fetch metadata
synchronously, then initialize the job and schedule the background
download.  The embedding covers the synchronous part of the handler, up
to the response being returned; the scheduled background task runs after
it.  The fresh uuid and datetime.now() enter as arguments. -/
def download_youtube_video (testMode : Bool) (maxDuration : Int)
    (extract : String → Except String VideoMetadata) (st : JobStore)
    (url : String) (job_id : String) (now : Nat) :
    Except ApiError DownloadResponse × JobStore :=
  if validate_youtube_url url = false then
    (.error (.badRequest "Invalid YouTube URL format"), st)
  else
    match get_video_info testMode maxDuration extract url with
    | .error e =>
      (.error (.badRequest ("Error getting video metadata: " ++ e.text)), st)
    | .ok m =>
      let st1 := update_job_status st job_id .pending
        { emptyUpdate with url := some url, metadata := some m, created_at := some now }
      (.ok { job_id := job_id, status := .pending,
             message := "Download started successfully",
             created_at := now, metadata := some m }, st1)

/-- The MetadataResponse body of POST /metadata. -/
structure MetadataResponse where
  success : Bool
  metadata : Option VideoMetadata
  error : Option String
deriving DecidableEq

/-- POST /metadata (get_video_metadata): an invalid URL raises a 400
HTTPException which the handler re-raises; any other exception from the
fetch is caught and returned as a success-status body with success false
and the error string. -/
def get_video_metadata (testMode : Bool) (maxDuration : Int)
    (extract : String → Except String VideoMetadata) (url : String) :
    Except ApiError MetadataResponse :=
  if validate_youtube_url url = false then
    .error (.badRequest "Invalid YouTube URL format")
  else
    match get_video_info testMode maxDuration extract url with
    | .ok m => .ok { success := true, metadata := some m, error := none }
    | .error e => .ok { success := false, metadata := none, error := some e.text }

/-- DELETE /jobs/{job_id} (cancel_job): 404 when the id is not in the
store, otherwise an unconditional overwrite to failed with the cancel
message. -/
def cancel_job (st : JobStore) (job_id : String) :
    Except ApiError String × JobStore :=
  match findEntry st job_id with
  | none => (.error (.notFound "Job not found"), st)
  | some _ =>
    (.ok "Job cancelled successfully",
     update_job_status st job_id .failed
       { emptyUpdate with error_details := some "Job cancelled by user" })

/-! ## The store mutations the code performs

Every write the repository makes to self.jobs, one constructor per call
site: the two pending initializations (download_video line 110 and the
handler line 60, plus the async wrapper line 178 of the same shape), the
progress hook, the finished hook (the test branch write of line 122 has
the same shape), the failure writes (lines 158, 164 and 192), and the
cancel handler. -/
inductive StoreOp where
  | initPending (id url : String)
  | apiCreate (id url : String) (m : VideoMetadata) (t : Nat)
  | progressTick (id : String) (p : Rat)
  | finishTick (id path : String)
  | failDownload (id msg : String)
  | cancel (id : String)

/-- The effect of one store mutation. -/
def applyOp (st : JobStore) : StoreOp → JobStore
  | .initPending id url =>
    update_job_status st id .pending { emptyUpdate with url := some url }
  | .apiCreate id url m t =>
    update_job_status st id .pending
      { emptyUpdate with url := some url, metadata := some m, created_at := some t }
  | .progressTick id p =>
    update_job_status st id .in_progress { emptyUpdate with progress := some p }
  | .finishTick id path =>
    update_job_status st id .completed { emptyUpdate with file_path := some path }
  | .failDownload id msg =>
    update_job_status st id .failed { emptyUpdate with error_details := some msg }
  | .cancel id => (cancel_job st id).2

/-- A run of the system from the empty store self.jobs = {}. -/
def applyOps (ops : List StoreOp) : JobStore :=
  ops.foldl applyOp []

/-! ## Fallback strategy

Modelled from the spec: the repository calls
YouTubeService.get_video_info_with_fallback from test_connectivity.py,
but the definition of the fallback mechanism is not among the source
files; section 4.4 of the specification defines it as tryInOrder over an
ordered candidate list, applying the operation to each candidate in
order, short-circuiting on the first success, sleeping a fixed backoff
delay after each failure except the last, and wrapping the last observed
failure when every candidate fails.  The trace records each attempt and
each sleep so the schedule is part of the result. -/
inductive FbEvent (ε α : Type) where
  | attemptFail (e : ε)
  | wait (d : Nat)
  | attemptOk (a : α)
deriving DecidableEq

/-- Modelled from the spec: tryInOrder of section 4.4, returning the
event trace together with the first success or the aggregate failure
wrapping the last observed failure (none when there was no candidate). -/
def tryInOrder {ι ε α : Type} (d : Nat) (op : ι → Except ε α) :
    List ι → List (FbEvent ε α) × Except (Option ε) α
  | [] => ([], .error none)
  | [c] =>
    match op c with
    | .ok a => ([.attemptOk a], .ok a)
    | .error e => ([.attemptFail e], .error (some e))
  | c :: c2 :: rest =>
    match op c with
    | .ok a => ([.attemptOk a], .ok a)
    | .error e =>
      let r := tryInOrder d op (c2 :: rest)
      (.attemptFail e :: .wait d :: r.1, r.2)

/-- The trace of a run of failing attempts each followed by the backoff. -/
def failTrace {ε α : Type} (d : Nat) : List ε → List (FbEvent ε α)
  | [] => []
  | e :: es => .attemptFail e :: .wait d :: failTrace d es

/-! ## Store lemmas -/

lemma findEntry_setEntry {α : Type} (l : List (String × α)) (key k : String) (v : α) :
    findEntry (setEntry l key v) k = if k = key then some v else findEntry l k := by
  induction l with
  | nil =>
    by_cases h : k = key
    · subst h; simp [setEntry, findEntry]
    · have h2 : ¬ key = k := fun hh => h hh.symm
      simp [setEntry, findEntry, h, h2]
  | cons hd tl ih =>
    obtain ⟨k0, v0⟩ := hd
    by_cases h0 : k0 = key
    · subst h0
      by_cases h : k = k0
      · subst h; simp [setEntry, findEntry]
      · have h2 : ¬ k0 = k := fun hh => h hh.symm
        simp [setEntry, findEntry, h, h2]
    · by_cases h : k = k0
      · subst h
        have h2 : ¬ k = key := fun hh => h0 hh
        simp [setEntry, findEntry, h0, h2]
      · have h2 : ¬ k0 = k := fun hh => h hh.symm
        simp [setEntry, findEntry, h0, h2, h, ih]

lemma pick_none_right {α : Type} (o : Option α) : pick o none = o := by
  cases o <;> rfl

lemma pick_some_left {α : Type} (v : α) (o : Option α) : pick (some v) o = some v := rfl

/-- The characterization of update_job_status used across the theorems:
the written record and the frame on every other id. -/
lemma update_spec (st : JobStore) (id : String) (s : DownloadStatus) (kw : JobUpdate) :
    ∃ r' : JobRecord,
      (∀ id' : String, get_job_status (update_job_status st id s kw) id' =
        if id' = id then some r' else get_job_status st id') ∧
      r'.status = s ∧
      r'.url = pick kw.url ((get_job_status st id).bind JobRecord.url) ∧
      r'.progress = pick kw.progress ((get_job_status st id).bind JobRecord.progress) ∧
      r'.metadata = pick kw.metadata ((get_job_status st id).bind JobRecord.metadata) ∧
      r'.created_at = pick kw.created_at ((get_job_status st id).bind JobRecord.created_at) ∧
      r'.file_path = pick kw.file_path ((get_job_status st id).bind JobRecord.file_path) ∧
      r'.error_details = pick kw.error_details ((get_job_status st id).bind JobRecord.error_details) := by
  unfold update_job_status get_job_status
  cases h : findEntry st id with
  | some r =>
    refine ⟨mergeRecord r s kw, ?_, rfl, ?_, ?_, ?_, ?_, ?_, ?_⟩ <;>
      simp [findEntry_setEntry, h, mergeRecord]
  | none =>
    refine ⟨freshRecord s kw, ?_, rfl, ?_, ?_, ?_, ?_, ?_, ?_⟩ <;>
      simp [findEntry_setEntry, h, freshRecord, pick_none_right]

lemma pick_isSome {α : Type} {o o' : Option α} (h : o.isSome = true) :
    (pick o o').isSome = true := by
  cases o with
  | some v => rfl
  | none => simp at h

/-- The two forward field invariants a record can be held to. -/
def statusFieldInv (r : JobRecord) : Prop :=
  (r.status = DownloadStatus.completed → r.file_path.isSome = true) ∧
  (r.status = DownloadStatus.failed → r.error_details.isSome = true)

lemma storeInv_update (st : JobStore) (id : String) (s : DownloadStatus) (kw : JobUpdate)
    (hst : ∀ i r, get_job_status st i = some r → statusFieldInv r)
    (hc : s = DownloadStatus.completed → kw.file_path.isSome = true)
    (hf : s = DownloadStatus.failed → kw.error_details.isSome = true) :
    ∀ i r, get_job_status (update_job_status st id s kw) i = some r → statusFieldInv r := by
  intro i r h
  obtain ⟨r', hframe, hs, _, _, _, _, hfp, hed⟩ := update_spec st id s kw
  rw [hframe i] at h
  by_cases hi : i = id
  · rw [if_pos hi] at h
    obtain rfl : r' = r := by exact Option.some.inj h
    constructor
    · intro hcc
      rw [hfp]
      exact pick_isSome (hc (hs ▸ hcc))
    · intro hff
      rw [hed]
      exact pick_isSome (hf (hs ▸ hff))
  · rw [if_neg hi] at h
    exact hst i r h

lemma storeInv_applyOp (st : JobStore) (op : StoreOp)
    (hst : ∀ i r, get_job_status st i = some r → statusFieldInv r) :
    ∀ i r, get_job_status (applyOp st op) i = some r → statusFieldInv r := by
  cases op with
  | initPending id url =>
    exact storeInv_update st id _ _ hst (fun h => nomatch h) (fun h => nomatch h)
  | apiCreate id url m t =>
    exact storeInv_update st id _ _ hst (fun h => nomatch h) (fun h => nomatch h)
  | progressTick id p =>
    exact storeInv_update st id _ _ hst (fun h => nomatch h) (fun h => nomatch h)
  | finishTick id path =>
    exact storeInv_update st id _ _ hst (fun _ => rfl) (fun h => nomatch h)
  | failDownload id msg =>
    exact storeInv_update st id _ _ hst (fun h => nomatch h) (fun _ => rfl)
  | cancel id =>
    show ∀ i r, get_job_status (cancel_job st id).2 i = some r → statusFieldInv r
    unfold cancel_job
    cases h : findEntry st id with
    | none => exact hst
    | some r0 =>
      exact storeInv_update st id _ _ hst (fun h => nomatch h) (fun _ => rfl)

lemma storeInv_foldl (ops : List StoreOp) :
    ∀ st : JobStore, (∀ i r, get_job_status st i = some r → statusFieldInv r) →
    ∀ i r, get_job_status (ops.foldl applyOp st) i = some r → statusFieldInv r := by
  induction ops with
  | nil => exact fun st hst => hst
  | cons op rest ih =>
    intro st hst
    exact ih (applyOp st op) (storeInv_applyOp st op hst)

/-! ## Claim C1 -/

/-- C1 counterexample and C2 counterexample share this run: the job is
initialized pending (download_video line 110) and completed by the
finished hook (line 134); the cancel handler is then applied to the
completed job. -/
def cexRun : List StoreOp :=
  [.initPending "j" "https://youtu.be/dQw4w9WgXcQ",
   .finishTick "j" "/downloads/f.mp4"]

/-- C1: the claim that a Completed job is never changed again is false at
a concrete input: after the run that completes job j, the user-cancel
operation changes its status from completed to failed. -/
theorem completed_job_cancel_changes_status :
    (get_job_status (applyOps cexRun) "j").map JobRecord.status
      = some DownloadStatus.completed ∧
    (get_job_status (applyOps (cexRun ++ [.cancel "j"])) "j").map JobRecord.status
      = some DownloadStatus.failed := by
  exact ⟨rfl, rfl⟩

/-- C1 (amended): status writes are unconditional: update_job_status
always stores the status it is given whatever the current status was, and
the cancel handler moves any job present in the store, a Completed or
Failed one included, to failed; the terminal states of the section 4.5
state machine are not protected by the code. -/
theorem status_writes_are_unconditional :
    (∀ (st : JobStore) (id : String) (s : DownloadStatus) (kw : JobUpdate),
      (get_job_status (update_job_status st id s kw) id).map JobRecord.status = some s) ∧
    (∀ (st : JobStore) (id : String) (r : JobRecord),
      get_job_status st id = some r →
      (get_job_status (cancel_job st id).2 id).map JobRecord.status
        = some DownloadStatus.failed) := by
  constructor
  · intro st id s kw
    obtain ⟨r', hframe, hs, _⟩ := update_spec st id s kw
    rw [hframe id, if_pos rfl]
    simp [hs]
  · intro st id r h
    have h' : findEntry st id = some r := h
    simp only [cancel_job, h']
    obtain ⟨r', hframe, hs, _⟩ :=
      update_spec st id DownloadStatus.failed
        { emptyUpdate with error_details := some "Job cancelled by user" }
    rw [hframe id, if_pos rfl]
    simp [hs]

/-! ## Claim C2 -/

/-- C2: the claimed equivalence is false at a concrete input: cancelling
the completed job j leaves file_path present while the status is failed,
because update_job_status merges and never clears a field. -/
theorem file_path_present_on_failed_job :
    (get_job_status (applyOps (cexRun ++ [.cancel "j"])) "j").map JobRecord.status
      = some DownloadStatus.failed ∧
    (get_job_status (applyOps (cexRun ++ [.cancel "j"])) "j").map JobRecord.file_path
      = some (some "/downloads/f.mp4") := by
  exact ⟨rfl, rfl⟩

/-- C2 (amended): over every sequence of the store operations the code
performs, file_path is present whenever the status is completed and
error_details is present whenever the status is failed; the two converse
directions fail (see the counterexample). -/
theorem terminal_fields_forward_invariant :
    ∀ (ops : List StoreOp) (id : String) (r : JobRecord),
      get_job_status (applyOps ops) id = some r →
      (r.status = DownloadStatus.completed → r.file_path.isSome = true) ∧
      (r.status = DownloadStatus.failed → r.error_details.isSome = true) := by
  intro ops id r h
  refine storeInv_foldl ops [] ?_ id r h
  intro i r0 h0
  simp [get_job_status, findEntry] at h0

/-- C2 witness: the invariant evaluated on the concrete completed job of
the run cexRun. -/
theorem terminal_fields_forward_invariant_witness :
    (Option.isSome (some "/downloads/f.mp4") : Bool) = true := by
  exact (terminal_fields_forward_invariant cexRun "j"
    { status := DownloadStatus.completed,
      url := some "https://youtu.be/dQw4w9WgXcQ", progress := none,
      metadata := none, created_at := none,
      file_path := some "/downloads/f.mp4", error_details := none } rfl).1 rfl

/-! ## Claim C6 -/

/-- C6: the claim that cancelling a known job sets errorDetails to the
string of the specification is false at a concrete input: the stored
string is the one of the source, different from the one claimed. -/
theorem cancel_error_details_string_differs :
    (get_job_status (applyOps (cexRun ++ [.cancel "j"])) "j").map JobRecord.error_details
      = some (some "Job cancelled by user") ∧
    (get_job_status (applyOps (cexRun ++ [.cancel "j"])) "j").map JobRecord.error_details
      ≠ some (some "cancelled by user") := by
  exact ⟨rfl, by decide⟩

/-- C6 (amended): DELETE of an unknown job id yields the 404 NotFound
error and leaves the store unchanged; for a known id the handler sets the
status of the job to failed with error_details equal to the string of the
source, which reads Job cancelled by user. -/
theorem cancel_endpoint_behavior :
    (∀ (st : JobStore) (id : String), get_job_status st id = none →
      cancel_job st id = (.error (.notFound "Job not found"), st) ∧
      (ApiError.notFound "Job not found").code = 404) ∧
    (∀ (st : JobStore) (id : String) (r : JobRecord), get_job_status st id = some r →
      (get_job_status (cancel_job st id).2 id).map JobRecord.status
        = some DownloadStatus.failed ∧
      (get_job_status (cancel_job st id).2 id).map JobRecord.error_details
        = some (some "Job cancelled by user")) := by
  constructor
  · intro st id h
    have h' : findEntry st id = none := h
    constructor
    · show cancel_job st id = _
      unfold cancel_job
      rw [h']
    · rfl
  · intro st id r h
    have h' : findEntry st id = some r := h
    simp only [cancel_job, h']
    obtain ⟨r', hframe, hs, _, _, _, _, _, hed⟩ :=
      update_spec st id DownloadStatus.failed
        { emptyUpdate with error_details := some "Job cancelled by user" }
    rw [hframe id, if_pos rfl]
    constructor
    · simp [hs]
    · simp [hed, pick_some_left]

/-! ## Claim C7 -/

/-- C7: update_job_status is an upsert that merges: the updated id maps
to a record whose status is the given one and whose every field is the
field of the update when named there and the stored field otherwise (the
stored field of an absent record being none, the created record carries
exactly the given fields); every other id is untouched. -/
theorem update_job_status_upsert_merge :
    ∀ (st : JobStore) (id : String) (s : DownloadStatus) (kw : JobUpdate),
      ∃ r' : JobRecord,
        (∀ id' : String, get_job_status (update_job_status st id s kw) id' =
          if id' = id then some r' else get_job_status st id') ∧
        r'.status = s ∧
        r'.url = pick kw.url ((get_job_status st id).bind JobRecord.url) ∧
        r'.progress = pick kw.progress ((get_job_status st id).bind JobRecord.progress) ∧
        r'.metadata = pick kw.metadata ((get_job_status st id).bind JobRecord.metadata) ∧
        r'.created_at = pick kw.created_at ((get_job_status st id).bind JobRecord.created_at) ∧
        r'.file_path = pick kw.file_path ((get_job_status st id).bind JobRecord.file_path) ∧
        r'.error_details = pick kw.error_details ((get_job_status st id).bind JobRecord.error_details) := by
  exact update_spec

/-! ## Claim C5 -/

/-- C5: when the URL validates but the synchronous metadata fetch fails,
POST /download answers with the 400 error and the job store is returned
unchanged: no record was created for the request. -/
theorem download_endpoint_metadata_failure_400 :
    ∀ (testMode : Bool) (maxDuration : Int)
      (extract : String → Except String VideoMetadata)
      (st : JobStore) (url job_id : String) (now : Nat) (e : YtError),
      validate_youtube_url url = true →
      get_video_info testMode maxDuration extract url = .error e →
      download_youtube_video testMode maxDuration extract st url job_id now =
        (.error (.badRequest ("Error getting video metadata: " ++ e.text)), st) ∧
      (ApiError.badRequest ("Error getting video metadata: " ++ e.text)).code = 400 := by
  intro tm maxD ex st url id now e hv he
  constructor
  · simp [download_youtube_video, hv, he]
  · rfl

/-- An extraction oracle that always fails. -/
def failExtract : String → Except String VideoMetadata := fun _ => .error "boom"

/-- C5 witness: the endpoint evaluated with a failing extraction on a
valid URL: the response is the 400 error and the empty store is left
empty. -/
theorem download_endpoint_metadata_failure_400_witness :
    download_youtube_video false 600 failExtract []
      "https://www.youtube.com/watch?v=dQw4w9WgXcQ" "job1" 0 =
      (.error (.badRequest ("Error getting video metadata: "
        ++ YtError.text (.extraction ("Error extracting video info: " ++ "boom")))), []) := by
  exact (download_endpoint_metadata_failure_400 false 600 failExtract []
    "https://www.youtube.com/watch?v=dQw4w9WgXcQ" "job1" 0
    (.extraction ("Error extracting video info: " ++ "boom")) rfl rfl).1

/-! ## Claim C9 -/

/-- C9: for a string the validator rejects, metadata fetch and download
both fail with the invalid-input error before consulting the test-mode
toggle or any external resource, in every mode; the download leaves both
the store and the filesystem untouched. -/
theorem validation_precedes_test_mode :
    ∀ (testMode : Bool) (maxDuration : Int)
      (extract : String → Except String VideoMetadata)
      (downloadPath : String) (engine : EngineRun) (st : JobStore) (fs : FileSys)
      (url job_id : String),
      validate_youtube_url url = false →
      get_video_info testMode maxDuration extract url = .error .invalidInput ∧
      download_video testMode downloadPath engine st fs url job_id
        = (.error .invalidInput, st, fs) := by
  intro tm maxD ex dp eng st fs url id hv
  constructor
  · simp [get_video_info, hv]
  · simp [download_video, hv]

/-- An extraction oracle standing for an unreachable network. -/
def noExtract : String → Except String VideoMetadata := fun _ => .error "offline"

/-- A download engine standing for an unreachable network. -/
def noEngine : EngineRun := fun st fs => .ok (st, fs, none)

/-- C9 witness: with the test toggle enabled, a rejected string still
fails both operations with the invalid-input error. -/
theorem validation_precedes_test_mode_witness :
    get_video_info true 600 noExtract "not-a-youtube-url" = .error .invalidInput ∧
    download_video true "downloads/youtube" noEngine [] [] "not-a-youtube-url" "job1"
      = (.error .invalidInput, [], []) := by
  exact validation_precedes_test_mode true 600 noExtract "downloads/youtube"
    noEngine [] [] "not-a-youtube-url" "job1" rfl

/-! ## Claim C10 -/

/-- C10: POST /metadata distinguishes the two failure kinds: a string the
validator rejects raises the 400 error, while a validated URL whose
extraction fails is answered with a success-status body carrying success
false and the error string. -/
theorem metadata_endpoint_error_modes :
    (∀ (testMode : Bool) (maxDuration : Int)
        (extract : String → Except String VideoMetadata) (url : String),
      validate_youtube_url url = false →
      get_video_metadata testMode maxDuration extract url
        = .error (.badRequest "Invalid YouTube URL format") ∧
      (ApiError.badRequest "Invalid YouTube URL format").code = 400) ∧
    (∀ (testMode : Bool) (maxDuration : Int)
        (extract : String → Except String VideoMetadata) (url : String) (e : YtError),
      validate_youtube_url url = true →
      get_video_info testMode maxDuration extract url = .error e →
      get_video_metadata testMode maxDuration extract url
        = .ok { success := false, metadata := none, error := some e.text }) := by
  constructor
  · intro tm maxD ex url hv
    constructor
    · simp [get_video_metadata, hv]
    · rfl
  · intro tm maxD ex url e hv he
    simp [get_video_metadata, hv, he]

/-- C10 witness: the endpoint evaluated with a failing extraction on a
valid URL answers with the success-status body, not an error. -/
theorem metadata_endpoint_error_modes_witness :
    get_video_metadata false 600 failExtract "https://www.youtube.com/watch?v=dQw4w9WgXcQ"
      = .ok { success := false, metadata := none,
              error := some (YtError.text
                (.extraction ("Error extracting video info: " ++ "boom"))) } := by
  exact metadata_endpoint_error_modes.2 false 600 failExtract
    "https://www.youtube.com/watch?v=dQw4w9WgXcQ"
    (.extraction ("Error extracting video info: " ++ "boom")) rfl rfl

/-! ## Claim C8 -/

/-- C8: with the test toggle set, metadata for any validated URL is the
fixed synthetic record and the result never depends on the extraction
engine; the download never depends on the download engine, succeeds with
the placeholder path under the download directory, writes the placeholder
content there, and records the job completed with that path. -/
theorem test_mode_offline_behavior :
    (∀ (maxDuration : Int) (e1 e2 : String → Except String VideoMetadata) (url : String),
      get_video_info true maxDuration e1 url = get_video_info true maxDuration e2 url) ∧
    (∀ (maxDuration : Int) (extract : String → Except String VideoMetadata) (url : String),
      validate_youtube_url url = true →
      get_video_info true maxDuration extract url = .ok testVideoMetadata) ∧
    (∀ (downloadPath : String) (eng1 eng2 : EngineRun) (st : JobStore) (fs : FileSys)
        (url job_id : String),
      download_video true downloadPath eng1 st fs url job_id
        = download_video true downloadPath eng2 st fs url job_id) ∧
    (∀ (downloadPath : String) (engine : EngineRun) (st : JobStore) (fs : FileSys)
        (url job_id : String),
      validate_youtube_url url = true →
      (download_video true downloadPath engine st fs url job_id).1
        = .ok (downloadPath ++ "/test_video_" ++ job_id ++ ".mp4") ∧
      findEntry (download_video true downloadPath engine st fs url job_id).2.2
          (downloadPath ++ "/test_video_" ++ job_id ++ ".mp4")
        = some "# Test video file - this would be the actual video content" ∧
      (get_job_status (download_video true downloadPath engine st fs url job_id).2.1
          job_id).map JobRecord.status = some DownloadStatus.completed ∧
      (get_job_status (download_video true downloadPath engine st fs url job_id).2.1
          job_id).map JobRecord.file_path
        = some (some (downloadPath ++ "/test_video_" ++ job_id ++ ".mp4"))) := by
  refine ⟨?_, ?_, ?_, ?_⟩
  · intro maxD e1 e2 url
    by_cases hv : validate_youtube_url url = false <;> simp [get_video_info, hv]
  · intro maxD ex url hv
    simp [get_video_info, hv, testVideoMetadata]
  · intro dp eng1 eng2 st fs url id
    by_cases hv : validate_youtube_url url = false <;> simp [download_video, hv]
  · intro dp eng st fs url id hv
    have hred : download_video true dp eng st fs url id =
        (.ok (dp ++ "/test_video_" ++ id ++ ".mp4"),
         update_job_status
           (update_job_status st id .pending { emptyUpdate with url := some url })
           id .completed
           { emptyUpdate with file_path := some (dp ++ "/test_video_" ++ id ++ ".mp4") },
         setEntry fs (dp ++ "/test_video_" ++ id ++ ".mp4")
           "# Test video file - this would be the actual video content") := by
      simp [download_video, hv]
    rw [hred]
    obtain ⟨r', hframe, hs, _, _, _, _, hfp, _⟩ :=
      update_spec (update_job_status st id .pending { emptyUpdate with url := some url })
        id .completed
        { emptyUpdate with file_path := some (dp ++ "/test_video_" ++ id ++ ".mp4") }
    refine ⟨rfl, ?_, ?_, ?_⟩
    · simp [findEntry_setEntry]
    · rw [hframe id, if_pos rfl]
      simp [hs]
    · rw [hframe id, if_pos rfl]
      simp [hfp, pick_some_left]

/-- C8 witness: the download evaluated concretely in test mode. -/
theorem test_mode_offline_behavior_witness :
    (download_video true "downloads/youtube" noEngine [] []
      "https://www.youtube.com/watch?v=dQw4w9WgXcQ" "job1").1
      = .ok ("downloads/youtube" ++ "/test_video_" ++ "job1" ++ ".mp4") := by
  exact (test_mode_offline_behavior.2.2.2 "downloads/youtube" noEngine [] []
    "https://www.youtube.com/watch?v=dQw4w9WgXcQ" "job1" rfl).1

/-! ## Claim C4: fallback strategy lemmas -/

lemma tryInOrder_ok {ι ε α : Type} (d : Nat) (op : ι → Except ε α) (c : ι)
    (cs : List ι) (a : α) (h : op c = .ok a) :
    tryInOrder d op (c :: cs) = ([.attemptOk a], .ok a) := by
  cases cs <;> simp [tryInOrder, h]

lemma tryInOrder_fail_cons {ι ε α : Type} (d : Nat) (op : ι → Except ε α)
    (c c2 : ι) (rest : List ι) (e : ε) (h : op c = .error e) :
    tryInOrder d op (c :: c2 :: rest) =
      (.attemptFail e :: .wait d :: (tryInOrder d op (c2 :: rest)).1,
       (tryInOrder d op (c2 :: rest)).2) := by
  simp [tryInOrder, h]

lemma tryInOrder_fail_single {ι ε α : Type} (d : Nat) (op : ι → Except ε α)
    (c : ι) (e : ε) (h : op c = .error e) :
    tryInOrder d op [c] = ([.attemptFail e], .error (some e)) := by
  simp [tryInOrder, h]

lemma tryInOrder_first_success {ι ε α : Type} (d : Nat) (op : ι → Except ε α) :
    ∀ (pre : List ι) (es : List ε) (c : ι) (post : List ι) (a : α),
      pre.map op = es.map Except.error → op c = .ok a →
      tryInOrder d op (pre ++ c :: post) = (failTrace d es ++ [.attemptOk a], .ok a) := by
  intro pre
  induction pre with
  | nil =>
    intro es c post a hmap hc
    obtain rfl : es = [] := by
      cases es with
      | nil => rfl
      | cons e es2 => exact absurd hmap.symm (by simp)
    simpa [failTrace] using tryInOrder_ok d op c post a hc
  | cons p pre2 ih =>
    intro es c post a hmap hc
    cases es with
    | nil => exact absurd hmap (by simp)
    | cons e es2 =>
      rw [List.map_cons, List.map_cons] at hmap
      injection hmap with hp hpre
      obtain ⟨x, xs, hxx⟩ : ∃ x xs, pre2 ++ c :: post = x :: xs := by
        cases hpp : pre2 ++ c :: post with
        | nil => exact absurd hpp (by simp)
        | cons x xs => exact ⟨x, xs, rfl⟩
      rw [show (p :: pre2) ++ c :: post = p :: (pre2 ++ c :: post) from rfl, hxx,
        tryInOrder_fail_cons d op p x xs e hp, ← hxx, ih es2 c post a hpre hc]
      simp [failTrace]

lemma tryInOrder_all_fail {ι ε α : Type} (d : Nat) (op : ι → Except ε α) :
    ∀ (init : List ι) (cl : ι) (es : List ε) (el : ε),
      init.map op = es.map Except.error → op cl = .error el →
      tryInOrder d op (init ++ [cl])
        = ((failTrace d es : List (FbEvent ε α)) ++ [.attemptFail el], .error (some el)) := by
  intro init
  induction init with
  | nil =>
    intro cl es el hmap hl
    obtain rfl : es = [] := by
      cases es with
      | nil => rfl
      | cons e es2 => exact absurd hmap.symm (by simp)
    simpa [failTrace] using tryInOrder_fail_single d op cl el hl
  | cons p init2 ih =>
    intro cl es el hmap hl
    cases es with
    | nil => exact absurd hmap (by simp)
    | cons e es2 =>
      rw [List.map_cons, List.map_cons] at hmap
      injection hmap with hp hpre
      obtain ⟨x, xs, hxx⟩ : ∃ x xs, init2 ++ [cl] = x :: xs := by
        cases hpp : init2 ++ [cl] with
        | nil => exact absurd hpp (by simp)
        | cons x xs => exact ⟨x, xs, rfl⟩
      rw [show (p :: init2) ++ [cl] = p :: (init2 ++ [cl]) from rfl, hxx,
        tryInOrder_fail_cons d op p x xs e hp, ← hxx, ih cl es2 el hpre hl]
      simp [failTrace]

/-- C4 (spec-modelled): the fallback strategy applies the operation to the
candidates in order; at the first success it returns that result at once,
the trace showing the earlier failures each followed by one backoff and
nothing from the candidates after the success; when every candidate fails
it fails with the aggregate wrapping the last observed failure, with no
backoff after the last attempt; on candidates A, B, C where A and B fail
and C succeeds it returns the result of C after the two failed attempts
with a backoff delay between each. -/
theorem tryInOrder_fallback_policy {ι ε α : Type} :
    (∀ (d : Nat) (op : ι → Except ε α) (pre : List ι) (es : List ε) (c : ι)
        (post : List ι) (a : α),
      pre.map op = es.map Except.error → op c = .ok a →
      tryInOrder d op (pre ++ c :: post) = (failTrace d es ++ [.attemptOk a], .ok a)) ∧
    (∀ (d : Nat) (op : ι → Except ε α) (init : List ι) (cl : ι) (es : List ε) (el : ε),
      init.map op = es.map Except.error → op cl = .error el →
      tryInOrder d op (init ++ [cl])
        = ((failTrace d es : List (FbEvent ε α)) ++ [.attemptFail el], .error (some el))) ∧
    (∀ (d : Nat) (op : ι → Except ε α) (cA cB cC : ι) (eA eB : ε) (vC : α),
      op cA = .error eA → op cB = .error eB → op cC = .ok vC →
      tryInOrder d op [cA, cB, cC]
        = ([.attemptFail eA, .wait d, .attemptFail eB, .wait d, .attemptOk vC], .ok vC)) := by
  refine ⟨fun d op => tryInOrder_first_success d op, fun d op => tryInOrder_all_fail d op, ?_⟩
  intro d op cA cB cC eA eB vC hA hB hC
  simp [tryInOrder, hA, hB, hC]

/-- The concrete operation of the C4 witness: candidates 0 and 1 fail,
candidate 2 succeeds. -/
def opW : Nat → Except String Nat := fun n => if n < 2 then .error "e" else .ok (10 * n)

/-- C4 witness: the scenario of the claim evaluated concretely. -/
theorem tryInOrder_fallback_policy_witness :
    tryInOrder 2 opW [0, 1, 2]
      = ([.attemptFail "e", .wait 2, .attemptFail "e", .wait 2, .attemptOk 20], .ok 20) := by
  exact tryInOrder_fallback_policy.2.2 2 opW 0 1 2 "e" "e" 20 rfl rfl rfl

/-! ## Claim C3: characterization of the validator language -/

lemma chomp_eq_some (p : List Char) : ∀ (cs r : List Char),
    chomp p cs = some r ↔ cs = p ++ r := by
  induction p with
  | nil =>
    intro cs r
    simp [chomp]
  | cons a ps ih =>
    intro cs r
    cases cs with
    | nil => simp [chomp]
    | cons c cs2 =>
      by_cases h : c = a
      · subst h
        simp [chomp, ih]
      · simp [chomp, h]

lemma afterLit_eq_true (lit : String) (k : List Char → Bool) (cs : List Char) :
    afterLit lit k cs = true ↔ ∃ r, cs = lit.toList ++ r ∧ k r = true := by
  constructor
  · intro h
    unfold afterLit at h
    cases hc : chomp lit.toList cs with
    | none => rw [hc] at h; exact absurd h (by simp)
    | some rest =>
      rw [hc] at h
      exact ⟨rest, (chomp_eq_some lit.toList cs rest).mp hc, h⟩
  · rintro ⟨r, hr, hk⟩
    unfold afterLit
    rw [(chomp_eq_some lit.toList cs r).mpr hr]
    exact hk

lemma pyEnd_eq_true (r : List Char) : pyEnd r = true ↔ r = [] ∨ r = ['\n'] := by
  match r with
  | [] => simp [pyEnd]
  | [c] => simp [pyEnd]
  | c1 :: c2 :: rest => simp [pyEnd]

lemma idCount_eq_some : ∀ (n : Nat) (cs r : List Char),
    idCount cs n = some r ↔
      ∃ id, cs = id ++ r ∧ id.length = n ∧ ∀ c ∈ id, isIdChar c = true := by
  intro n
  induction n with
  | zero =>
    intro cs r
    constructor
    · intro h
      simp only [idCount] at h
      obtain rfl : cs = r := Option.some.inj h
      exact ⟨[], by simp, rfl, by simp⟩
    · rintro ⟨id, hcs, hlen, _⟩
      obtain rfl : id = [] := List.length_eq_zero.mp hlen
      obtain rfl : cs = r := by simpa using hcs
      simp [idCount]
  | succ n ih =>
    intro cs r
    cases cs with
    | nil =>
      constructor
      · intro h; exact absurd h (by simp [idCount])
      · rintro ⟨id, hcs, hlen, _⟩
        cases id with
        | nil => simp at hlen
        | cons a as => exact absurd hcs (by simp)
    | cons c cs2 =>
      by_cases hc : isIdChar c = true
      · constructor
        · intro h
          rw [show idCount (c :: cs2) (n + 1) = idCount cs2 n from by simp [idCount, hc]] at h
          obtain ⟨id0, hcs, hlen, hall⟩ := (ih cs2 r).mp h
          refine ⟨c :: id0, by simp [hcs], by simp [hlen], ?_⟩
          intro x hx
          rcases List.mem_cons.mp hx with h1 | h2
          · subst h1; exact hc
          · exact hall x h2
        · rintro ⟨id, hcs, hlen, hall⟩
          cases id with
          | nil => simp at hlen
          | cons a id1 =>
            obtain ⟨ha, hcs2⟩ : c = a ∧ cs2 = id1 ++ r := by simpa using hcs
            subst ha
            have hres : idCount cs2 n = some r :=
              (ih cs2 r).mpr ⟨id1, hcs2, by simpa using hlen,
                fun x hx => hall x (List.mem_cons_of_mem _ hx)⟩
            simpa [idCount, hc] using hres
      · constructor
        · intro h
          exact absurd h (by simp [idCount, hc])
        · rintro ⟨id, hcs, hlen, hall⟩
          cases id with
          | nil => simp at hlen
          | cons a id1 =>
            obtain ⟨ha, _⟩ : c = a ∧ cs2 = id1 ++ r := by simpa using hcs
            exact absurd (ha ▸ hall a (List.mem_cons_self a id1)) hc

lemma tailMatch_eq_true (cs : List Char) :
    tailMatch cs = true ↔ ∃ id tl, cs = id ++ tl ∧ id.length = 11 ∧
      (∀ c ∈ id, isIdChar c = true) ∧ (tl = [] ∨ tl = ['\n']) := by
  constructor
  · intro h
    unfold tailMatch at h
    cases hic : idCount cs 11 with
    | none => rw [hic] at h; exact absurd h (by simp)
    | some rest =>
      rw [hic] at h
      obtain ⟨id, hcs, hlen, hall⟩ := (idCount_eq_some 11 cs rest).mp hic
      exact ⟨id, rest, hcs, hlen, hall, (pyEnd_eq_true rest).mp h⟩
  · rintro ⟨id, tl, hcs, hlen, hall, htl⟩
    unfold tailMatch
    rw [(idCount_eq_some 11 cs tl).mpr ⟨id, hcs, hlen, hall⟩]
    exact (pyEnd_eq_true tl).mpr htl

lemma hostMatch_eq_true (cs : List Char) :
    hostMatch cs = true ↔ ∃ hl r, cs = hl ++ r ∧
      (hl = "youtube.com/watch?v=".toList ∨ hl = "youtube.com/embed/".toList ∨
       hl = "youtube.com/v/".toList ∨ hl = "youtu.be/".toList ∨
       hl = "m.youtube.com/watch?v=".toList) ∧ tailMatch r = true := by
  unfold hostMatch
  simp only [Bool.or_eq_true, afterLit_eq_true]
  constructor
  · intro h
    rcases h with (((⟨r, hr, hk⟩ | ⟨r, hr, hk⟩) | ⟨r, hr, hk⟩) | ⟨r, hr, hk⟩) | ⟨r, hr, hk⟩
    · exact ⟨_, r, hr, Or.inl rfl, hk⟩
    · exact ⟨_, r, hr, Or.inr (Or.inl rfl), hk⟩
    · exact ⟨_, r, hr, Or.inr (Or.inr (Or.inl rfl)), hk⟩
    · exact ⟨_, r, hr, Or.inr (Or.inr (Or.inr (Or.inl rfl))), hk⟩
    · exact ⟨_, r, hr, Or.inr (Or.inr (Or.inr (Or.inr rfl))), hk⟩
  · rintro ⟨hl, r, hr, (rfl | rfl | rfl | rfl | rfl), hk⟩
    · exact Or.inl (Or.inl (Or.inl (Or.inl ⟨r, hr, hk⟩)))
    · exact Or.inl (Or.inl (Or.inl (Or.inr ⟨r, hr, hk⟩)))
    · exact Or.inl (Or.inl (Or.inr ⟨r, hr, hk⟩))
    · exact Or.inl (Or.inr ⟨r, hr, hk⟩)
    · exact Or.inr ⟨r, hr, hk⟩

lemma afterScheme_eq_true (cs : List Char) :
    afterScheme cs = true ↔ ∃ mid r, cs = mid ++ r ∧
      (mid = [] ∨ mid = "www.".toList) ∧ hostMatch r = true := by
  unfold afterScheme
  simp only [Bool.or_eq_true, afterLit_eq_true]
  constructor
  · rintro (h | ⟨r, hr, hk⟩)
    · exact ⟨[], cs, by simp, Or.inl rfl, h⟩
    · exact ⟨_, r, hr, Or.inr rfl, hk⟩
  · rintro ⟨mid, r, hr, (rfl | rfl), hk⟩
    · left
      obtain rfl : cs = r := by simpa using hr
      exact hk
    · exact Or.inr ⟨r, hr, hk⟩

lemma validate_eq_true (url : String) :
    validate_youtube_url url = true ↔ ∃ sch r, url.toList = sch ++ r ∧
      (sch = "http://".toList ∨ sch = "https://".toList) ∧ afterScheme r = true := by
  unfold validate_youtube_url
  simp only [Bool.or_eq_true, afterLit_eq_true]
  constructor
  · rintro (⟨r, hr, hk⟩ | ⟨r, hr, hk⟩)
    · exact ⟨_, r, hr, Or.inl rfl, hk⟩
    · exact ⟨_, r, hr, Or.inr rfl, hk⟩
  · rintro ⟨sch, r, hr, (rfl | rfl), hk⟩
    · exact Or.inl ⟨r, hr, hk⟩
    · exact Or.inr ⟨r, hr, hk⟩

/-- The language the source regex accepts, stated declaratively: scheme
http or https, then optionally the literal www., then one of the five
host-and-path literals (the m. subdomain exists only fused with the
watch?v= path, while www. may precede any of the five), then exactly 11
characters of the class, then the end of the string or one trailing
newline (the dollar anchor of Python re). -/
def AmendedUrlShape (url : String) : Prop :=
  ∃ sch mid hl id tl : List Char,
    url.toList = sch ++ (mid ++ (hl ++ (id ++ tl))) ∧
    (sch = "http://".toList ∨ sch = "https://".toList) ∧
    (mid = [] ∨ mid = "www.".toList) ∧
    (hl = "youtube.com/watch?v=".toList ∨ hl = "youtube.com/embed/".toList ∨
     hl = "youtube.com/v/".toList ∨ hl = "youtu.be/".toList ∨
     hl = "m.youtube.com/watch?v=".toList) ∧
    id.length = 11 ∧ (∀ c ∈ id, isIdChar c = true) ∧
    (tl = [] ∨ tl = ['\n'])

/-- C3: the claimed equivalence between the validator and the shape the
specification describes is false at concrete inputs: a URL of the
described shape with the m. subdomain and the embed/ path is rejected,
and a URL that is not of the described shape, having a trailing newline,
is accepted. -/
theorem validator_rejects_spec_shape_example :
    specUrlShape "https://m.youtube.com/embed/dQw4w9WgXcQ" = true ∧
    validate_youtube_url "https://m.youtube.com/embed/dQw4w9WgXcQ" = false ∧
    validate_youtube_url "https://youtu.be/dQw4w9WgXcQ\n" = true ∧
    specUrlShape "https://youtu.be/dQw4w9WgXcQ\n" = false := by
  exact ⟨rfl, rfl, rfl, rfl⟩

/-- C3 (amended): the validator returns true exactly for the strings of
the amended shape: scheme http or https, optional www., then
youtube.com/watch?v=, youtube.com/embed/, youtube.com/v/, youtu.be/ or
m.youtube.com/watch?v=, then exactly an 11-character identifier from the
class, then the end or a single trailing newline; in particular it
returns true for the known-valid example. -/
theorem validator_amended_characterization :
    (∀ url : String, validate_youtube_url url = true ↔ AmendedUrlShape url) ∧
    validate_youtube_url "https://www.youtube.com/watch?v=dQw4w9WgXcQ" = true := by
  constructor
  · intro url
    constructor
    · intro h
      obtain ⟨sch, r1, he1, hs, ha⟩ := (validate_eq_true url).mp h
      obtain ⟨mid, r2, he2, hm, hh⟩ := (afterScheme_eq_true r1).mp ha
      obtain ⟨hl, r3, he3, hd, ht⟩ := (hostMatch_eq_true r2).mp hh
      obtain ⟨id, tl, he4, hlen, hall, htl⟩ := (tailMatch_eq_true r3).mp ht
      exact ⟨sch, mid, hl, id, tl, by rw [he1, he2, he3, he4], hs, hm, hd, hlen, hall, htl⟩
    · rintro ⟨sch, mid, hl, id, tl, he, hs, hm, hd, hlen, hall, htl⟩
      apply (validate_eq_true url).mpr
      refine ⟨sch, mid ++ (hl ++ (id ++ tl)), he, hs, ?_⟩
      apply (afterScheme_eq_true _).mpr
      refine ⟨mid, hl ++ (id ++ tl), rfl, hm, ?_⟩
      apply (hostMatch_eq_true _).mpr
      refine ⟨hl, id ++ tl, rfl, hd, ?_⟩
      exact (tailMatch_eq_true _).mpr ⟨id, tl, rfl, hlen, hall, htl⟩
  · rfl

end YTShorts
